import Mathlib

/-!
Verification of the CNES_AUTOMATOR repository (cnes_automator_fast.py).

The file shallowly embeds the parts of `cnes_automator_fast.py` that the
claims refer to:

* a JSON value type standing for the Python values handled by `json.load`
  (numbers restricted to integers; floats do not occur in the claims),
* Python dict operations on association lists (`get`, `in`, assignment,
  `del`, `copy`) with Python semantics (assignment updates in place or
  appends; `del` removes the key),
* `consultar_estabelecimento_async` as a pure function from a modelled
  transport-level response to an outcome `(Bool × Json)` plus the updated
  `stats` dictionary,
* the batching pipeline `processar_lista_codigos` / `processar_lote_codigos`,
* `carregar_codigos_cnes`,
* `CNESMacrorregiaeMerger.carregar_dados_macrorregiao`,
  `mesclar_dados_unidade` and the statistics loop of
  `mesclar_arquivo_resultados`,
* the state and error-propagation behaviour of `ProgressTracker.update`
  and `ProgressTracker.finish` (wall-clock times as rationals; the rendered
  text itself is irrelevant to the claims, only whether rendering is
  reached and whether a raised rendering error escapes).

Fallible Python code (code that can raise) is modelled with `Option` /
`Except`: `none` / `.error` means the Python code raises an exception.
-/

/-- JSON-like Python values as produced by `json.load` and handled by the
script.  Numbers are modelled as integers (the inputs relevant to the
claims carry integer or string codes; no claim depends on float values). -/
inductive Json where
  | null : Json
  | bool : Bool → Json
  | num : Int → Json
  | str : String → Json
  | arr : List Json → Json
  | obj : List (String × Json) → Json

/-- Python `x is None` (as a Bool, for use in conditions). -/
def Json.isNull : Json → Bool
  | .null => true
  | _ => false

/-- Python `isinstance(x, dict)`. -/
def Json.isObj : Json → Bool
  | .obj _ => true
  | _ => false

/-- Python dicts are modelled as association lists with unique keys in
insertion order (the invariant `json.load` and the dict operations below
maintain). -/
abbrev Dict := List (String × Json)

/-- Python `d[k]` read / `d.get(k)` when the key is present: the value at
the first matching key (keys are unique in every dict the script builds,
so first match is the match). -/
def alGet? {α : Type} : List (String × α) → String → Option α
  | [], _ => none
  | p :: rest, k => if p.1 == k then some p.2 else alGet? rest k

/-- Python `d.get(k, default)`. -/
def alGetD {α : Type} (l : List (String × α)) (k : String) (d : α) : α :=
  (alGet? l k).getD d

/-- Python `k in d` for a dict. -/
def alHasKey {α : Type} : List (String × α) → String → Bool
  | [], _ => false
  | p :: rest, k => p.1 == k || alHasKey rest k

/-- Python `d[k] = v`: updates the entry in place when the key is present,
otherwise appends the new entry (Python dicts keep insertion order). -/
def alSet {α : Type} : List (String × α) → String → α → List (String × α)
  | [], k, v => [(k, v)]
  | p :: rest, k, v => if p.1 == k then (k, v) :: rest else p :: alSet rest k v

/-- Python `del d[k]`: removes the entry with key `k`. -/
def alDel {α : Type} : List (String × α) → String → List (String × α)
  | [], _ => []
  | p :: rest, k => if p.1 == k then rest else p :: alDel rest k

mutual

/-- Python `repr` of a JSON-like value (also its `str` for every type but
`str` itself): `None`, `True`/`False`, decimal integers, quoted strings,
bracketed lists and braced dicts. -/
def pyRepr : Json → String
  | .null => "None"
  | .bool true => "True"
  | .bool false => "False"
  | .num n => toString n
  | .str s => "\x27" ++ s ++ "\x27"
  | .arr xs => "[" ++ String.intercalate ", " (pyReprList xs) ++ "]"
  | .obj fs => "\x7b" ++ String.intercalate ", " (pyReprFields fs) ++ "\x7d"

/-- Reprs of the elements of a Python list. -/
def pyReprList : List Json → List String
  | [] => []
  | v :: rest => pyRepr v :: pyReprList rest

/-- Reprs of the entries of a Python dict. -/
def pyReprFields : List (String × Json) → List String
  | [] => []
  | (k, v) :: rest =>
      ("\x27" ++ k ++ "\x27: " ++ pyRepr v) :: pyReprFields rest

end

/-- Python `str(x)`: the string itself for strings, `repr` otherwise
(which coincides with Python `str` on `None`, booleans, integers, lists
and dicts). -/
def pyStr : Json → String
  | .str s => s
  | j => pyRepr j

/-- Python `x == "k"` between an arbitrary value and a string: true exactly
for the equal string (Python equality across these types is `False`). -/
def pyEqStr : Json → String → Bool
  | .str s, k => s == k
  | _, _ => false

/-- A naive substring test on character lists (used to model Python
`"k" in s` on strings). -/
def subListOf (needle : List Char) : List Char → Bool
  | [] => needle.isEmpty
  | c :: rest => needle.isPrefixOf (c :: rest) || subListOf needle rest

/-- Python `k in x` for a string key `k`: key test on dicts, membership on
lists, substring test on strings; on any other value Python raises
`TypeError`, modelled as `none`. -/
def pyContainsStr : Json → String → Option Bool
  | .obj fs, k => some (alHasKey fs k)
  | .arr xs, k => some (xs.any (fun x => pyEqStr x k))
  | .str s, k => some (subListOf k.toList s.toList)
  | _, _ => none

/-- Python `x[k]` for a string key `k`: only dicts support string
subscription (`KeyError` on a missing key, `TypeError` on any other
value — both modelled as `none`). -/
def pySubscriptStr : Json → String → Option Json
  | .obj fs, k => alGet? fs k
  | _, _ => none

/-- Python iteration `for item in x`: the elements of a list, the keys of
a dict, the one-character strings of a string; iterating any other value
raises `TypeError`, modelled as `none`. -/
def iterElems : Json → Option (List Json)
  | .arr xs => some xs
  | .obj fs => some (fs.map (fun p => Json.str p.1))
  | .str s => some (s.toList.map (fun c => Json.str c.toString))
  | _ => none

/-- The `stats` dictionary of `CNESAPIAutomator.__init__` (the two
timestamp entries are irrelevant to the claims and omitted). -/
structure Stats where
  total_requisicoes : Nat := 0
  sucessos : Nat := 0
  erros : Nat := 0
  codigos_invalidos : Nat := 0
  erros_conexao : Nat := 0

/-- The transport-level behaviour of one request in
`consultar_estabelecimento_async`, as seen by the `try` block: the
`session.get` either times out (`asyncio.TimeoutError`), raises some other
exception (with its `str`), or delivers a status code together with the
result of `await response.json()` — a parsed value, or the `str` of the
exception the parse raised. -/
inductive HttpResp where
  | timeout : HttpResp
  | raised (detalhes : String) : HttpResp
  | status (code : Nat) (corpo : Except String Json) : HttpResp

/-- The API base URL of `CNESAPIAutomator`. -/
def base_url : String := "https://apidadosabertos.saude.gov.br/cnes/estabelecimentos"

/-- The `_metadata` dict attached to a successful dict payload
(`now` stands for `datetime.now().isoformat()`). -/
def metadataDe (now codigo_cnes url : String) : Json :=
  Json.obj [("consultado_em", Json.str now),
            ("codigo_cnes_consultado", Json.str codigo_cnes),
            ("url_consultada", Json.str url)]

/-- `consultar_estabelecimento_async`: classifies one response into the
`(sucesso, dados_ou_erro)` pair the coroutine returns and updates the
shared `stats` dict exactly as the source does (the total counter first,
then one outcome counter per branch).  The function is total: every
exception the request can raise is converted into an error record. -/
def consultar_estabelecimento (now codigo_cnes : String) (resp : HttpResp)
    (stats : Stats) : (Bool × Json) × Stats :=
  let url := base_url ++ "/" ++ codigo_cnes
  let stats := { stats with total_requisicoes := stats.total_requisicoes + 1 }
  match resp with
  | .status code corpo =>
    if code = 200 then
      match corpo with
      | .ok dados =>
        let dados := match dados with
          | .obj fs => Json.obj (alSet fs "_metadata" (metadataDe now codigo_cnes url))
          | d => d
        ((true, dados), { stats with sucessos := stats.sucessos + 1 })
      | .error detalhes =>
        ((false, Json.obj [("codigo_cnes", Json.str codigo_cnes),
                           ("erro", Json.str "Resposta não é um JSON válido"),
                           ("status_code", Json.num code),
                           ("detalhes", Json.str detalhes)]),
         { stats with erros := stats.erros + 1 })
    else if code = 404 then
      ((false, Json.obj [("codigo_cnes", Json.str codigo_cnes),
                         ("erro", Json.str "Código CNES não encontrado"),
                         ("status_code", Json.num 404),
                         ("url_consultada", Json.str url)]),
       { stats with codigos_invalidos := stats.codigos_invalidos + 1 })
    else
      ((false, Json.obj [("codigo_cnes", Json.str codigo_cnes),
                         ("erro", Json.str ("Erro HTTP " ++ toString code)),
                         ("status_code", Json.num code),
                         ("url_consultada", Json.str url)]),
       { stats with erros := stats.erros + 1 })
  | .timeout =>
    ((false, Json.obj [("codigo_cnes", Json.str codigo_cnes),
                       ("erro", Json.str "Timeout na requisição"),
                       ("detalhes", Json.str "A requisição demorou mais que 15 segundos"),
                       ("url_consultada", Json.str url)]),
     { stats with erros_conexao := stats.erros_conexao + 1 })
  | .raised detalhes =>
    ((false, Json.obj [("codigo_cnes", Json.str codigo_cnes),
                       ("erro", Json.str "Erro inesperado"),
                       ("detalhes", Json.str detalhes),
                       ("url_consultada", Json.str url)]),
     { stats with erros := stats.erros + 1 })

/-- `processar_lote_codigos`: one `consultar_estabelecimento_async` task
per code of the batch; `asyncio.gather` preserves order and arity, so the
list of outcomes is positionally aligned with the batch.  The
`return_exceptions=True` cleanup branch of the source is unreachable in
the embedding because `consultar_estabelecimento` is total (it catches
every exception itself).  The environment `env` fixes the transport
behaviour of each code. -/
def processar_lote_codigos (now : String) (env : String → HttpResp) :
    List String → Stats → List (Bool × Json) × Stats
  | [], stats => ([], stats)
  | codigo :: rest, stats =>
    let r := consultar_estabelecimento now codigo (env codigo) stats
    let rs := processar_lote_codigos now env rest r.2
    (r.1 :: rs.1, rs.2)

/-- The batch split of `processar_lista_codigos`
(`codigos_cnes[i:i+k]` for `i in range(0, len, k)`).  Faithful to the
source for `k ≥ 1`; Python raises `ValueError` for `k = 0` (`range` step
zero), so every theorem about the pipeline assumes `0 < k`. -/
def lotes (k : Nat) (codigos : List String) : List (List String) :=
  match codigos with
  | [] => []
  | c :: rest => (c :: rest.take (k - 1)) :: lotes k (rest.drop (k - 1))
termination_by codigos.length
decreasing_by simp [List.length_drop]; omega

/-- The per-success stamping step of the result loop of
`processar_lista_codigos`: when the outcome value is a dict containing
`_metadata`, the sequence index `(i-1)*k + j + 1` is written into that
metadata dict (`i` the 1-based batch number, `j` the 0-based position of
the outcome in the batch).  The source line
`resultado['_metadata']['indice_processamento'] = ...` presupposes that
the `_metadata` value is a dict; `consultar_estabelecimento` stores a
dict there on every dict success, so the non-dict fallback below is
unreachable in the pipeline. -/
def stampSucesso (k i j : Nat) (resultado : Json) : Json :=
  match resultado with
  | .obj fs =>
    if alHasKey fs "_metadata" then
      match alGet? fs "_metadata" with
      | some (.obj ms) =>
        Json.obj (alSet fs "_metadata"
          (Json.obj (alSet ms "indice_processamento" (Json.num ((i - 1) * k + j + 1)))))
      | _ => Json.obj fs
    else Json.obj fs
  | r => r

/-- The inner result loop of `processar_lista_codigos`: successes are
stamped and appended to `estabelecimentos_validos`, failures to
`erros_encontrados`, in batch order (`j` is the running `enumerate`
index). -/
def processar_resultados_lote (k i : Nat) :
    Nat → List (Bool × Json) → List Json × List Json
  | _, [] => ([], [])
  | j, (sucesso, resultado) :: rest =>
    let r := processar_resultados_lote k i (j + 1) rest
    if sucesso then (stampSucesso k i j resultado :: r.1, r.2)
    else (r.1, resultado :: r.2)

/-- The consolidated result of a run: the two accumulator lists and the
final `stats` (backup files, progress rendering and the metadata block
are side channels that no claim depends on, except the progress tracker
modelled separately below). -/
structure Resultado where
  estabelecimentos : List Json
  erros : List Json
  stats : Stats

/-- The batch loop of `processar_lista_codigos` (`for i, lote in
enumerate(lotes, 1)`). -/
def processar_lotes (now : String) (env : String → HttpResp) (k : Nat) :
    Nat → Stats → List (List String) → Resultado
  | _, stats, [] => ⟨[], [], stats⟩
  | i, stats, lote :: rest =>
    let rl := processar_lote_codigos now env lote stats
    let se := processar_resultados_lote k i 0 rl.1
    let r := processar_lotes now env k (i + 1) rl.2 rest
    ⟨se.1 ++ r.estabelecimentos, se.2 ++ r.erros, r.stats⟩

/-- `processar_lista_codigos`: split into batches of size `k`
(`concurrent_requests`) and run the batch loop from batch number 1. -/
def processar_lista_codigos (now : String) (env : String → HttpResp)
    (k : Nat) (codigos_cnes : List String) (stats : Stats) : Resultado :=
  processar_lotes now env k 1 stats (lotes k codigos_cnes)

/-- The code-extraction phase of `carregar_codigos_cnes`: builds the raw
`codigos` list according to the shape of the loaded JSON document.
`none` models an exception escaping the extraction (for instance a
`TypeError` from `in` on an unsupported value inside the
`estabelecimentos` branch).  Note that Python `isinstance(item, (str,
int))` is true for booleans (`bool` subclasses `int`). -/
def extrair_codigos (dados : Json) : Option (List String) :=
  match dados with
  | .arr itens =>
    some (itens.foldr (fun item acc =>
      match item with
      | .obj fs =>
        match alGet? fs "codigo_cnes" with
        | some v => pyStr v :: acc
        | none => acc
      | .str s => s :: acc
      | .num n => pyStr (Json.num n) :: acc
      | .bool b => pyStr (Json.bool b) :: acc
      | _ => acc) [])
  | .obj fs =>
    if alHasKey fs "estabelecimentos" then
      match alGet? fs "estabelecimentos" with
      | some lista =>
        match iterElems lista with
        | some itens =>
          itens.foldr (fun estabelecimento acc =>
            match acc with
            | none => none
            | some cs =>
              match pyContainsStr estabelecimento "codigo_cnes" with
              | none => none
              | some true =>
                match pySubscriptStr estabelecimento "codigo_cnes" with
                | some v => some (pyStr v :: cs)
                | none => none
              | some false => some cs) (some [])
        | none => none
      | none => none
    else if alHasKey fs "codigo_cnes" then
      (alGet? fs "codigo_cnes").map (fun v => [pyStr v])
    else if alHasKey fs "codigos" then
      match alGet? fs "codigos" with
      | some lista => (iterElems lista).map (fun itens => itens.map pyStr)
      | none => none
    else some []
  | _ => some []

/-- Deduplication keeping the first occurrence of each code.  The source
uses `list(set(...))`, whose order is unspecified; the model fixes one
order — no claim depends on the order, only on the resulting set and on
emptiness. -/
def dedupPrimeiro : List String → List String
  | [] => []
  | c :: rest => c :: dedupPrimeiro (rest.filter (fun x => !(x == c)))
termination_by l => l.length
decreasing_by
  refine Nat.lt_of_le_of_lt ?_ (Nat.lt_succ_self rest.length)
  exact rest.length_filter_le _

/-- `carregar_codigos_cnes` after `json.load`: extract, drop codes that
strip to empty, deduplicate; raise `ValueError` (modelled as `none`) when
no valid code remains. -/
def carregar_codigos_cnes (dados : Json) : Option (List String) :=
  match extrair_codigos dados with
  | none => none
  | some cs =>
    let codigos := dedupPrimeiro (cs.filter (fun c => !(c.trim == "")))
    if codigos.isEmpty then none else some codigos

/-- The fixed wrapper key accepted by `carregar_dados_macrorregiao`. -/
def chave_municipios : String := "macrorregiao_regiao_saude_municipios"

/-- The per-entry projection built by `carregar_dados_macrorregiao`:
the ten whitelisted fields, each read with `item.get` (absent fields
become `None`). -/
def projEntrada (fs : Dict) : Dict :=
  [("codigo_regiao_pais", alGetD fs "codigo_regiao_pais" Json.null),
   ("regiao_pais", alGetD fs "regiao_pais" Json.null),
   ("codigo_uf", alGetD fs "codigo_uf" Json.null),
   ("uf", alGetD fs "uf" Json.null),
   ("codigo_macrorregiao_saude", alGetD fs "codigo_macrorregiao_saude" Json.null),
   ("macrorregiao_saude", alGetD fs "macrorregiao_saude" Json.null),
   ("codigo_regiao_saude", alGetD fs "codigo_regiao_saude" Json.null),
   ("regiao_saude", alGetD fs "regiao_saude" Json.null),
   ("municipio", alGetD fs "municipio" Json.null),
   ("populacao_estimada_ibge_2022", alGetD fs "populacao_estimada_ibge_2022" Json.null)]

/-- The reference index `dados_macrorregiao`: municipality code, as a
string, mapped to the projected entry. -/
abbrev Indice := List (String × Dict)

/-- The municipality code of an entry as the source computes it:
`str(item.get('codigo_municipio', ''))`. -/
def codigoDeEntrada (fs : Dict) : String :=
  pyStr (alGetD fs "codigo_municipio" (Json.str ""))

/-- The index-building loop of `carregar_dados_macrorregiao`: each item
must be a dict (`item.get` raises `AttributeError` otherwise, modelled as
`none`); entries whose code is empty are skipped; duplicate codes are
overwritten (last write wins). -/
def construirIndice : List Json → Indice → Option Indice
  | [], acc => some acc
  | item :: rest, acc =>
    match item with
    | .obj fs =>
      let codigo_municipio := codigoDeEntrada fs
      if codigo_municipio = "" then construirIndice rest acc
      else construirIndice rest (alSet acc codigo_municipio (projEntrada fs))
    | _ => none

/-- `carregar_dados_macrorregiao` after `json.load`: the source first
evaluates `'macrorregiao_regiao_saude_municipios' in dados` (Python `in`,
which on a list is membership and on a string is a substring test), takes
`dados[...]` when true, otherwise falls back to `isinstance(dados, list)`
and finally raises `ValueError`.  Any exception on the way (`TypeError`
from `in` or from the subscription, `AttributeError` in the loop) is
re-raised by the surrounding `except` — all failures are `none`. -/
def carregar_dados_macrorregiao (dados : Json) : Option Indice :=
  match pyContainsStr dados chave_municipios with
  | none => none
  | some true =>
    match pySubscriptStr dados chave_municipios with
    | some lista_municipios =>
      match iterElems lista_municipios with
      | some itens => construirIndice itens []
      | none => none
    | none => none
  | some false =>
    match dados with
    | .arr itens => construirIndice itens []
    | _ => none

/-- `mesclar_dados_unidade` on a dict record: copy, drop `_metadata`,
compute `str(unidade_saude.get('codigo_municipio', ''))`, and attach
either the matching reference entry without its `codigo_uf` field or
`None`.  The source guards the `del dados_macro_limpos['codigo_uf']` with
a key test; `alDel` on an absent key is the identity, so no separate
branch is needed. -/
def mesclar_dados_unidade (indice : Indice) (unidade_saude : Dict) : Dict :=
  let unidade_mesclada := unidade_saude
  let unidade_mesclada :=
    if alHasKey unidade_mesclada "_metadata" then alDel unidade_mesclada "_metadata"
    else unidade_mesclada
  let codigo_municipio := pyStr (alGetD unidade_saude "codigo_municipio" (Json.str ""))
  if codigo_municipio ≠ "" ∧ alHasKey indice codigo_municipio then
    let dados_macro_limpos := alDel (alGetD indice codigo_municipio []) "codigo_uf"
    alSet unidade_mesclada "dados_macrorregiao" (Json.obj dados_macro_limpos)
  else
    alSet unidade_mesclada "dados_macrorregiao" Json.null

/-- The merge statistics accumulated by `mesclar_arquivo_resultados`. -/
structure Mesclagem where
  estabelecimentos_mesclados : List Dict
  bem_sucedidas : Nat
  falharam : Nat
  nao_encontrados : List String

/-- The per-record loop of `mesclar_arquivo_resultados`: merge each
record, count the merge as successful when the attached
`dados_macrorregiao` is not `None`, and otherwise record the (non-empty)
municipality code in `codigos_municipio_nao_encontrados`. -/
def mesclar_arquivo_loop (indice : Indice) : List Dict → Mesclagem
  | [] => ⟨[], 0, 0, []⟩
  | estabelecimento :: rest =>
    let m := mesclar_dados_unidade indice estabelecimento
    let r := mesclar_arquivo_loop indice rest
    if (alGetD m "dados_macrorregiao" Json.null).isNull = false then
      ⟨m :: r.estabelecimentos_mesclados, r.bem_sucedidas + 1, r.falharam,
       r.nao_encontrados⟩
    else
      let codigo_municipio := pyStr (alGetD estabelecimento "codigo_municipio" (Json.str ""))
      ⟨m :: r.estabelecimentos_mesclados, r.bem_sucedidas, r.falharam + 1,
       if codigo_municipio ≠ "" then codigo_municipio :: r.nao_encontrados
       else r.nao_encontrados⟩

/-- The mutable state of `ProgressTracker` (wall-clock instants and rates
as rationals; `description` does not influence any claim and is
omitted). -/
structure ProgressTracker where
  total_items : Nat
  processed_items : Nat := 0
  start_time : Rat
  last_update : Rat := 0
  success_count : Nat := 0
  error_count : Nat := 0
  last_rates : List Rat := []

/-- `ProgressTracker.update`, with the rendering side effect made
explicit: `current_time` stands for `time.time()` and `write_ok` for
whether `sys.stdout.write` succeeds.  The counter fields are assigned
before the rate-limit gate, exactly as in the source; past the gate the
sliding rate window is maintained, then the progress line is rendered.
Rendering divides `processed` by `total_items` (a `ZeroDivisionError`
when the tracker was built for zero items) and then writes; an exception
from either is not caught anywhere in `update`, so it escapes to the
caller — `.error ()` models that escape.  The purely textual quantities
(percentage, bar, ETA string, batch labels) do not feed back into the
state and are not tracked. -/
def ProgressTracker.update (t : ProgressTracker) (current_time : Rat)
    (processed : Nat) (success_count error_count : Option Nat)
    (write_ok : Bool) : Except Unit ProgressTracker :=
  let t : ProgressTracker := { t with processed_items := processed }
  let t : ProgressTracker := match success_count with
           | some n => { t with success_count := n }
           | none => t
  let t : ProgressTracker := match error_count with
           | some n => { t with error_count := n }
           | none => t
  if current_time - t.last_update < 3 / 10 ∧ processed < t.total_items then
    Except.ok t
  else
    let t : ProgressTracker := { t with last_update := current_time }
    let elapsed_time := current_time - t.start_time
    let t : ProgressTracker :=
      if 0 < elapsed_time then
        let current_rate : Rat := processed / elapsed_time
        let rates := t.last_rates ++ [current_rate]
        let rates := if 10 < rates.length then rates.drop 1 else rates
        { t with last_rates := rates }
      else t
    if t.total_items = 0 then (Except.error () : Except Unit ProgressTracker)
    else if write_ok then Except.ok t else Except.error ()

/-- `ProgressTracker.finish`: always renders (several `print` calls, the
numeric guards of the source avoid division by zero); an exception from
printing is not caught and escapes to the caller. -/
def ProgressTracker.finish (t : ProgressTracker) (current_time : Rat)
    (write_ok : Bool) : Except Unit Unit :=
  if write_ok then Except.ok () else Except.error ()

/-! ### Association-list lemmas -/

theorem alGet?_alSet_self {α : Type} (l : List (String × α)) (k : String) (v : α) :
    alGet? (alSet l k v) k = some v := by
  induction l with
  | nil => simp [alSet, alGet?]
  | cons p rest ih =>
    by_cases hp : p.1 == k
    · simp [alSet, alGet?, hp]
    · simp [alSet, alGet?, hp, ih]

theorem alGet?_alSet_ne {α : Type} (l : List (String × α)) (k k' : String) (v : α)
    (h : k' ≠ k) : alGet? (alSet l k v) k' = alGet? l k' := by
  induction l with
  | nil => simp [alSet, alGet?, Ne.symm h]
  | cons p rest ih =>
    by_cases hp : p.1 == k
    · have hpk : p.1 = k := eq_of_beq hp
      simp [alSet, alGet?, hp, hpk, Ne.symm h]
    · by_cases hq : p.1 == k'
      · simp [alSet, alGet?, hp, hq]
      · simp [alSet, alGet?, hp, hq, ih]

theorem alGet?_alDel_ne {α : Type} (l : List (String × α)) (k k' : String)
    (h : k' ≠ k) : alGet? (alDel l k) k' = alGet? l k' := by
  induction l with
  | nil => simp [alDel]
  | cons p rest ih =>
    by_cases hp : p.1 == k
    · have hpk : p.1 = k := eq_of_beq hp
      simp [alDel, alGet?, hp, hpk, Ne.symm h]
    · by_cases hq : p.1 == k'
      · simp [alDel, alGet?, hp, hq]
      · simp [alDel, alGet?, hp, hq, ih]

theorem alHasKey_of_alGet? {α : Type} {l : List (String × α)} {k : String} {v : α}
    (h : alGet? l k = some v) : alHasKey l k = true := by
  induction l with
  | nil => simp [alGet?] at h
  | cons p rest ih =>
    by_cases hp : p.1 == k
    · simp [alHasKey, hp]
    · rw [alGet?, if_neg hp] at h
      simp [alHasKey, hp, ih h]

theorem alGet?_eq_none_of_not_hasKey {α : Type} {l : List (String × α)} {k : String}
    (h : alHasKey l k = false) : alGet? l k = none := by
  induction l with
  | nil => simp [alGet?]
  | cons p rest ih =>
    rw [alHasKey] at h
    simp only [Bool.or_eq_false_iff] at h
    rw [alGet?, if_neg (by simp [h.1]), ih h.2]

theorem alGetD_of_alGet? {α : Type} {l : List (String × α)} {k : String} {v d : α}
    (h : alGet? l k = some v) : alGetD l k d = v := by
  simp [alGetD, h]

/-! ### Batch pipeline lemmas -/

theorem lotes_flatten (k : Nat) : ∀ (n : Nat) (cs : List String),
    cs.length ≤ n → (lotes k cs).flatten = cs := by
  intro n
  induction n with
  | zero =>
    intro cs h
    have : cs = [] := List.length_eq_zero.mp (Nat.le_zero.mp h)
    subst this
    rw [lotes.eq_def]
    simp
  | succ n ih =>
    intro cs h
    match cs with
    | [] => rw [lotes.eq_def]; simp
    | c :: rest =>
      rw [lotes.eq_def]
      have hd : (rest.drop (k - 1)).length ≤ n := by
        have := List.length_drop (k - 1) rest
        simp only [List.length_cons] at h
        omega
      simp only [List.flatten_cons, ih _ hd]
      simp [List.take_append_drop]

theorem processar_lote_fst_length (now : String) (env : String → HttpResp) :
    ∀ (cs : List String) (s : Stats),
    (processar_lote_codigos now env cs s).1.length = cs.length := by
  intro cs
  induction cs with
  | nil => intro s; simp [processar_lote_codigos]
  | cons c rest ih => intro s; simp [processar_lote_codigos, ih]

theorem processar_resultados_lote_length (k i : Nat) :
    ∀ (j : Nat) (rs : List (Bool × Json)),
    (processar_resultados_lote k i j rs).1.length
      + (processar_resultados_lote k i j rs).2.length = rs.length := by
  intro j rs
  induction rs generalizing j with
  | nil => simp [processar_resultados_lote]
  | cons r rest ih =>
    match r with
    | (sucesso, resultado) =>
      by_cases hs : sucesso
      · simp only [processar_resultados_lote, hs, if_true, List.length_cons]
        have := ih (j + 1)
        omega
      · simp [processar_resultados_lote, hs]
        have := ih (j + 1)
        omega

theorem processar_lotes_length (now : String) (env : String → HttpResp) (k : Nat) :
    ∀ (ls : List (List String)) (i : Nat) (s : Stats),
    (processar_lotes now env k i s ls).estabelecimentos.length
      + (processar_lotes now env k i s ls).erros.length
      = (ls.map List.length).sum := by
  intro ls
  induction ls with
  | nil => intro i s; simp [processar_lotes]
  | cons lote rest ih =>
    intro i s
    simp only [processar_lotes, List.map_cons, List.sum_cons, List.length_append]
    have h1 := processar_resultados_lote_length k i 0
      (processar_lote_codigos now env lote s).1
    rw [processar_lote_fst_length] at h1
    have h2 := ih (i + 1) (processar_lote_codigos now env lote s).2
    omega

/-- Claim C1: for every non-empty list of facility codes (and positive
concurrency `k`, which `fetch` requires), `processar_lista_codigos`
produces success and failure lists whose lengths sum to the length of the
input list: every code yields exactly one outcome, appended to exactly
one of the two result lists. -/
theorem c1_fetch_parity (now : String) (env : String → HttpResp) (k : Nat)
    (codigos_cnes : List String) (stats : Stats)
    (hk : 0 < k) (hne : codigos_cnes ≠ []) :
    (processar_lista_codigos now env k codigos_cnes stats).estabelecimentos.length
      + (processar_lista_codigos now env k codigos_cnes stats).erros.length
      = codigos_cnes.length := by
  unfold processar_lista_codigos
  rw [processar_lotes_length]
  have hflat := lotes_flatten k codigos_cnes.length codigos_cnes (Nat.le_refl _)
  calc ((lotes k codigos_cnes).map List.length).sum
      = (lotes k codigos_cnes).flatten.length := (List.length_flatten _).symm
    _ = codigos_cnes.length := by rw [hflat]

/-- Witness for C1: a concrete two-code run with one success and one
failure has `1 + 1 = 2` outcomes. -/
theorem c1_fetch_parity_witness :
    (processar_lista_codigos "t"
        (fun c => if c = "b" then HttpResp.status 200 (Except.ok (Json.obj []))
                  else HttpResp.status 404 (Except.error ""))
        2 ["a", "b"] {}).estabelecimentos.length
      + (processar_lista_codigos "t"
        (fun c => if c = "b" then HttpResp.status 200 (Except.ok (Json.obj []))
                  else HttpResp.status 404 (Except.error ""))
        2 ["a", "b"] {}).erros.length = 2 :=
  c1_fetch_parity "t"
    (fun c => if c = "b" then HttpResp.status 200 (Except.ok (Json.obj []))
              else HttpResp.status 404 (Except.error ""))
    2 ["a", "b"] {} (by decide) (by decide)

/-! ### Outcome classification -/

/-- Field access on a record outcome (`none` when the outcome is not a
dict or lacks the field). -/
def campo? (r : Json) (k : String) : Option Json :=
  match r with
  | .obj fs => alGet? fs k
  | _ => none

/-- Claim C2: the per-request classification of
`consultar_estabelecimento_async` follows the first-matching-rule order
of the spec: transport timeout → Timeout; HTTP 404 → NotFound; other
non-200 status → HttpError(status); 200 with unparseable body →
InvalidPayload; 200 with parseable body → Success; any other exception →
Unexpected.  The `erro` tag of each failure record identifies the
class. -/
theorem c2_classification (now codigo detalhes : String) (stats : Stats)
    (code : Nat) (corpo : Except String Json) (dados : Json) :
    ((consultar_estabelecimento now codigo HttpResp.timeout stats).1.1 = false
      ∧ campo? (consultar_estabelecimento now codigo HttpResp.timeout stats).1.2 "erro"
          = some (Json.str "Timeout na requisição"))
    ∧ ((consultar_estabelecimento now codigo (HttpResp.status 404 corpo) stats).1.1 = false
      ∧ campo? (consultar_estabelecimento now codigo (HttpResp.status 404 corpo) stats).1.2 "erro"
          = some (Json.str "Código CNES não encontrado"))
    ∧ (code ≠ 200 → code ≠ 404 →
      (consultar_estabelecimento now codigo (HttpResp.status code corpo) stats).1.1 = false
      ∧ campo? (consultar_estabelecimento now codigo (HttpResp.status code corpo) stats).1.2 "erro"
          = some (Json.str ("Erro HTTP " ++ toString code))
      ∧ campo? (consultar_estabelecimento now codigo (HttpResp.status code corpo) stats).1.2 "status_code"
          = some (Json.num code))
    ∧ ((consultar_estabelecimento now codigo (HttpResp.status 200 (Except.error detalhes)) stats).1.1 = false
      ∧ campo? (consultar_estabelecimento now codigo (HttpResp.status 200 (Except.error detalhes)) stats).1.2 "erro"
          = some (Json.str "Resposta não é um JSON válido"))
    ∧ ((consultar_estabelecimento now codigo (HttpResp.status 200 (Except.ok dados)) stats).1.1 = true)
    ∧ ((consultar_estabelecimento now codigo (HttpResp.raised detalhes) stats).1.1 = false
      ∧ campo? (consultar_estabelecimento now codigo (HttpResp.raised detalhes) stats).1.2 "erro"
          = some (Json.str "Erro inesperado")) := by
  refine ⟨⟨?_, ?_⟩, ⟨?_, ?_⟩, ?_, ⟨?_, ?_⟩, ?_, ?_, ?_⟩
  · simp [consultar_estabelecimento]
  · simp [consultar_estabelecimento, campo?, alGet?]
  · simp [consultar_estabelecimento]
  · simp [consultar_estabelecimento, campo?, alGet?]
  · intro h200 h404
    refine ⟨?_, ?_, ?_⟩ <;>
      simp [consultar_estabelecimento, h200, h404, campo?, alGet?]
  · simp [consultar_estabelecimento]
  · simp [consultar_estabelecimento, campo?, alGet?]
  · simp [consultar_estabelecimento]
  · simp [consultar_estabelecimento, campo?, alGet?]
  · simp [consultar_estabelecimento, campo?, alGet?]

/-- Witness for C2: rule 3 applied at the concrete status 500. -/
theorem c2_classification_witness :
    (consultar_estabelecimento "t" "c" (HttpResp.status 500 (Except.error "")) {}).1.1 = false
    ∧ campo? (consultar_estabelecimento "t" "c" (HttpResp.status 500 (Except.error "")) {}).1.2 "erro"
        = some (Json.str ("Erro HTTP " ++ toString 500)) :=
  ⟨((c2_classification "t" "c" "" {} 500 (Except.error "") Json.null).2.2.1
      (by decide) (by decide)).1,
   ((c2_classification "t" "c" "" {} 500 (Except.error "") Json.null).2.2.1
      (by decide) (by decide)).2.1⟩

/-- Claim C9: a 200 response whose body parses as JSON but is not a JSON
object is still classified as a success and counted as such, but no
`_metadata` provenance stamp is attached (the record is returned
unchanged) and the result loop attaches no sequence index (the record
passes into the successes list unchanged). -/
theorem c9_non_dict_success (now codigo : String) (stats : Stats) (dados : Json)
    (h : dados.isObj = false) :
    (consultar_estabelecimento now codigo (HttpResp.status 200 (Except.ok dados)) stats).1
      = (true, dados)
    ∧ (consultar_estabelecimento now codigo (HttpResp.status 200 (Except.ok dados)) stats).2.sucessos
      = stats.sucessos + 1
    ∧ (∀ k i j, stampSucesso k i j dados = dados)
    ∧ (∀ k i j rest, (processar_resultados_lote k i j ((true, dados) :: rest)).1
        = dados :: (processar_resultados_lote k i (j + 1) rest).1) := by
  refine ⟨?_, ?_, ?_, ?_⟩
  · cases dados <;> simp_all [consultar_estabelecimento, Json.isObj]
  · cases dados <;> simp_all [consultar_estabelecimento, Json.isObj]
  · intro k i j
    cases dados <;> simp_all [stampSucesso, Json.isObj]
  · intro k i j rest
    rw [processar_resultados_lote]
    simp only [if_true]
    cases dados <;> simp_all [stampSucesso, Json.isObj]

/-- Witness for C9: the empty JSON array as payload. -/
theorem c9_non_dict_success_witness :
    (consultar_estabelecimento "t" "c" (HttpResp.status 200 (Except.ok (Json.arr []))) {}).1
      = (true, Json.arr []) :=
  (c9_non_dict_success "t" "c" {} (Json.arr []) (by rfl)).1

/-! ### Stats counters -/

/-- Sum of the four outcome counters of the `stats` dict. -/
def somaDesfechos (s : Stats) : Nat :=
  s.sucessos + s.erros + s.codigos_invalidos + s.erros_conexao

theorem consultar_stats_step (now codigo : String) (resp : HttpResp) (s : Stats) :
    (consultar_estabelecimento now codigo resp s).2.total_requisicoes
      = s.total_requisicoes + 1
    ∧ somaDesfechos (consultar_estabelecimento now codigo resp s).2
      = somaDesfechos s + 1 := by
  cases resp with
  | timeout => refine ⟨?_, ?_⟩ <;> simp [consultar_estabelecimento, somaDesfechos] <;> omega
  | raised detalhes =>
    refine ⟨?_, ?_⟩ <;> simp [consultar_estabelecimento, somaDesfechos] <;> omega
  | status code corpo =>
    by_cases h200 : code = 200
    · cases corpo with
      | ok dados =>
        refine ⟨?_, ?_⟩ <;> simp [consultar_estabelecimento, h200, somaDesfechos] <;> omega
      | error detalhes =>
        refine ⟨?_, ?_⟩ <;> simp [consultar_estabelecimento, h200, somaDesfechos] <;> omega
    · by_cases h404 : code = 404
      · refine ⟨?_, ?_⟩ <;>
          simp [consultar_estabelecimento, h200, h404, somaDesfechos] <;> omega
      · refine ⟨?_, ?_⟩ <;>
          simp [consultar_estabelecimento, h200, h404, somaDesfechos] <;> omega

theorem processar_lote_stats (now : String) (env : String → HttpResp) :
    ∀ (cs : List String) (s : Stats),
    (processar_lote_codigos now env cs s).2.total_requisicoes
      = s.total_requisicoes + cs.length
    ∧ somaDesfechos (processar_lote_codigos now env cs s).2
      = somaDesfechos s + cs.length := by
  intro cs
  induction cs with
  | nil => intro s; simp [processar_lote_codigos]
  | cons c rest ih =>
    intro s
    have hstep := consultar_stats_step now c (env c) s
    have hrest := ih (consultar_estabelecimento now c (env c) s).2
    simp only [processar_lote_codigos, List.length_cons]
    omega

theorem processar_lotes_stats (now : String) (env : String → HttpResp) (k : Nat) :
    ∀ (ls : List (List String)) (i : Nat) (s : Stats),
    (processar_lotes now env k i s ls).stats.total_requisicoes
      = s.total_requisicoes + (ls.map List.length).sum
    ∧ somaDesfechos (processar_lotes now env k i s ls).stats
      = somaDesfechos s + (ls.map List.length).sum := by
  intro ls
  induction ls with
  | nil => intro i s; simp [processar_lotes]
  | cons lote rest ih =>
    intro i s
    have hlote := processar_lote_stats now env lote s
    have hrest := ih (i + 1) (processar_lote_codigos now env lote s).2
    simp only [processar_lotes, List.map_cons, List.sum_cons]
    omega

/-- Claim C10: every completed call to `consultar_estabelecimento_async`
increments the total-requests counter exactly once and the four outcome
counters exactly once in total, so along any run the invariant
`sucessos + erros + codigos_invalidos + erros_conexao = total_requisicoes`
is preserved by the whole pipeline. -/
theorem c10_stats_invariant :
    (∀ (now codigo : String) (resp : HttpResp) (s : Stats),
      (consultar_estabelecimento now codigo resp s).2.total_requisicoes
        = s.total_requisicoes + 1
      ∧ somaDesfechos (consultar_estabelecimento now codigo resp s).2
        = somaDesfechos s + 1)
    ∧ (∀ (now : String) (env : String → HttpResp) (k : Nat)
        (codigos : List String) (s : Stats),
      somaDesfechos s = s.total_requisicoes →
      somaDesfechos (processar_lista_codigos now env k codigos s).stats
        = (processar_lista_codigos now env k codigos s).stats.total_requisicoes) := by
  constructor
  · exact consultar_stats_step
  · intro now env k codigos s hinv
    have := processar_lotes_stats now env k (lotes k codigos) 1 s
    unfold processar_lista_codigos
    omega

/-- Witness for C10: the pipeline invariant at a concrete one-code run
starting from the zeroed stats. -/
theorem c10_stats_invariant_witness :
    somaDesfechos (processar_lista_codigos "t" (fun _ => HttpResp.timeout) 1 ["a"] {}).stats
      = (processar_lista_codigos "t" (fun _ => HttpResp.timeout) 1 ["a"] {}).stats.total_requisicoes :=
  c10_stats_invariant.2 "t" (fun _ => HttpResp.timeout) 1 ["a"] {} (by rfl)

/-! ### Sequence index -/

/-- Reads the sequence index stamped into a record's `_metadata`. -/
def indiceDe (r : Json) : Option Json :=
  match campo? r "_metadata" with
  | some m => campo? m "indice_processamento"
  | none => none

/-- Claim C4 counterexample: with concurrency `k = 2` and codes
`["a", "b"]` where `"a"` fails (404) and `"b"` succeeds, the run has
exactly one success — the 1st success of batch 1, so the claim predicts
sequence index `(1-1)*2 + 1 = 1` — but the code stamps the index from
the position among all outcomes of the batch and assigns 2. -/
theorem c4_counterexample :
    ((processar_lista_codigos "t"
        (fun c => if c = "b" then HttpResp.status 200 (Except.ok (Json.obj []))
                  else HttpResp.status 404 (Except.error ""))
        2 ["a", "b"] {}).estabelecimentos.map indiceDe)
      = [some (Json.num 2)]
    ∧ some (Json.num 2) ≠ some (Json.num ((1 - 1) * 2 + 1)) := by
  constructor
  · have hl : lotes 2 ["a", "b"] = [["a", "b"]] := by
      rw [lotes.eq_def]
      norm_num
      rw [lotes.eq_def]
    rw [processar_lista_codigos, hl]
    rfl
  · simp

theorem stampSucesso_mem_processar_resultados (k b : Nat) :
    ∀ (rs : List (Bool × Json)) (j0 j : Nat) (r : Json),
    rs[j]? = some (true, r) →
    stampSucesso k b (j0 + j) r ∈ (processar_resultados_lote k b j0 rs).1 := by
  intro rs
  induction rs with
  | nil => intro j0 j r h; simp at h
  | cons p rest ih =>
    intro j0 j r h
    match p with
    | (sucesso, resultado) =>
      match j with
      | 0 =>
        simp only [List.getElem?_cons, if_pos rfl] at h
        have hs : sucesso = true := by
          have := congrArg (fun o => o.map Prod.fst) h
          simpa using this
        have hr : resultado = r := by
          have := congrArg (fun o => o.map Prod.snd) h
          simpa using this
        subst hs hr
        simp [processar_resultados_lote]
      | j' + 1 =>
        have h' : rest[j']? = some (true, r) := by
          simpa using h
        have := ih (j0 + 1) j' r h'
        have harith : j0 + 1 + j' = j0 + (j' + 1) := by omega
        rw [harith] at this
        by_cases hs : sucesso
        · simp only [processar_resultados_lote, hs, if_true]
          exact List.mem_cons_of_mem _ this
        · simp only [processar_resultados_lote, hs, if_false]
          simpa using this

/-- Claim C4 amended: the sequence index assigned in batch `b` (1-based)
goes to the success at 0-based position `j` among all outcomes of the
batch — equivalently, the `j`-th code of the batch — and equals
`(b-1)*k + j + 1`; it is not the position among the successes only.  The
success, stamped with exactly that index, appears in the successes
list. -/
theorem c4_amended (k b j : Nat) (rs : List (Bool × Json)) (fs ms : Dict)
    (h1 : rs[j]? = some (true, Json.obj fs))
    (h2 : alGet? fs "_metadata" = some (Json.obj ms)) :
    Json.obj (alSet fs "_metadata"
        (Json.obj (alSet ms "indice_processamento" (Json.num ((b - 1) * k + j + 1)))))
      ∈ (processar_resultados_lote k b 0 rs).1 := by
  have hmem := stampSucesso_mem_processar_resultados k b rs 0 j (Json.obj fs) h1
  rw [Nat.zero_add] at hmem
  have hstamp : stampSucesso k b j (Json.obj fs)
      = Json.obj (alSet fs "_metadata"
          (Json.obj (alSet ms "indice_processamento" (Json.num ((b - 1) * k + j + 1))))) := by
    simp only [stampSucesso]
    rw [if_pos (alHasKey_of_alGet? h2), h2]
  rw [hstamp] at hmem
  exact hmem

/-- Witness for C4 (amended): a batch whose first outcome fails and whose
second succeeds; the success is stamped with index 2. -/
theorem c4_amended_witness :
    Json.obj (alSet [("_metadata", Json.obj [])] "_metadata"
        (Json.obj (alSet [] "indice_processamento" (Json.num ((1 - 1) * 2 + 1 + 1)))))
      ∈ (processar_resultados_lote 2 1 0
          [(false, Json.null), (true, Json.obj [("_metadata", Json.obj [])])]).1 :=
  c4_amended 2 1 1 [(false, Json.null), (true, Json.obj [("_metadata", Json.obj [])])]
    [("_metadata", Json.obj [])] [] (by rfl) (by rfl)

/-! ### Error semantics of loading and fetching -/

theorem dedupPrimeiro_nil : dedupPrimeiro [] = [] := by
  rw [dedupPrimeiro.eq_def]

/-- Claim C6: loading a code file that yields no valid (non-empty) code
fails by raising (`none`), before any fetch can start — and dually the
loader never returns an empty list; while every failing request inside
the fetch is converted into a failure record carrying the code, never
raised (`consultar_estabelecimento` is total, with no error channel). -/
theorem c6_error_semantics :
    (∀ (dados : Json) (cs : List String),
      extrair_codigos dados = some cs →
      cs.filter (fun c => !(c.trim == "")) = [] →
      carregar_codigos_cnes dados = none)
    ∧ (∀ (dados : Json) (l : List String),
      carregar_codigos_cnes dados = some l → l ≠ [])
    ∧ (∀ (now codigo : String) (resp : HttpResp) (s : Stats),
      (consultar_estabelecimento now codigo resp s).1.1 = false →
      ∃ fs, (consultar_estabelecimento now codigo resp s).1.2 = Json.obj fs
        ∧ alGet? fs "codigo_cnes" = some (Json.str codigo)) := by
  refine ⟨?_, ?_, ?_⟩
  · intro dados cs hext hfilt
    unfold carregar_codigos_cnes
    rw [hext]
    simp [hfilt, dedupPrimeiro_nil]
  · intro dados l h
    unfold carregar_codigos_cnes at h
    cases hext : extrair_codigos dados with
    | none => rw [hext] at h; simp at h
    | some cs =>
      rw [hext] at h
      simp only [] at h
      split at h
      · simp at h
      · rename_i hne
        have : dedupPrimeiro (cs.filter (fun c => !(c.trim == ""))) = l := by
          injection h
        rw [this] at hne
        simpa using hne
  · intro now codigo resp s h
    cases resp with
    | timeout => exact ⟨_, rfl, rfl⟩
    | raised detalhes => exact ⟨_, rfl, rfl⟩
    | status code corpo =>
      by_cases h200 : code = 200
      · cases corpo with
        | ok dados =>
          exfalso
          subst h200
          simp [consultar_estabelecimento] at h
        | error detalhes =>
          subst h200
          exact ⟨_, rfl, rfl⟩
      · by_cases h404 : code = 404
        · subst h404
          exact ⟨_, rfl, rfl⟩
        · have hrec : (consultar_estabelecimento now codigo (HttpResp.status code corpo) s).1.2
              = Json.obj [("codigo_cnes", Json.str codigo),
                          ("erro", Json.str ("Erro HTTP " ++ toString code)),
                          ("status_code", Json.num code),
                          ("url_consultada", Json.str (base_url ++ "/" ++ codigo))] := by
            simp [consultar_estabelecimento, h200, h404]
          exact ⟨_, hrec, rfl⟩

/-- Witness for C6: the empty JSON array yields no code and loading
fails. -/
theorem c6_error_semantics_witness :
    carregar_codigos_cnes (Json.arr []) = none :=
  c6_error_semantics.1 (Json.arr []) [] (by rfl) (by rfl)

/-! ### Reference index -/

/-- The last entry of the reference list whose municipality code equals
`c` ("last write wins" on duplicates). -/
def ultimaEntradaCom (c : String) (itens : List Dict) : Option Dict :=
  itens.reverse.find? (fun fs => codigoDeEntrada fs == c)

theorem construir_map_obj_isSome :
    ∀ (itens : List Dict) (acc : Indice),
    (construirIndice (itens.map Json.obj) acc).isSome = true := by
  intro itens
  induction itens with
  | nil => intro acc; simp [construirIndice]
  | cons fs rest ih =>
    intro acc
    by_cases hc : codigoDeEntrada fs = ""
    · simpa [construirIndice, hc] using ih acc
    · simpa [construirIndice, hc] using ih (alSet acc (codigoDeEntrada fs) (projEntrada fs))

theorem construir_lookup :
    ∀ (itens : List Dict) (acc idx : Indice) (c : String),
    c ≠ "" →
    construirIndice (itens.map Json.obj) acc = some idx →
    alGet? idx c =
      (match ultimaEntradaCom c itens with
       | some g => some (projEntrada g)
       | none => alGet? acc c) := by
  intro itens
  induction itens with
  | nil =>
    intro acc idx c hc h
    simp only [List.map_nil, construirIndice, Option.some.injEq] at h
    subst h
    simp [ultimaEntradaCom]
  | cons fs rest ih =>
    intro acc idx c hc h
    simp only [List.map_cons, construirIndice] at h
    have hrev : ultimaEntradaCom c (fs :: rest)
        = (ultimaEntradaCom c rest).or
            (List.find? (fun g => codigoDeEntrada g == c) [fs]) := by
      simp [ultimaEntradaCom, List.reverse_cons, List.find?_append]
    by_cases hcode : codigoDeEntrada fs = ""
    · rw [if_pos hcode] at h
      have hfs : (codigoDeEntrada fs == c) = false := by
        rw [hcode]
        exact beq_eq_false_iff_ne.mpr (Ne.symm hc)
      rw [ih acc idx c hc h, hrev]
      simp [List.find?, hfs]
    · rw [if_neg hcode] at h
      rw [ih _ idx c hc h, hrev]
      cases hu : ultimaEntradaCom c rest with
      | some g => simp [Option.or]
      | none =>
        simp only [Option.or]
        by_cases heq : codigoDeEntrada fs == c
        · have : codigoDeEntrada fs = c := eq_of_beq heq
          subst this
          simp [List.find?, heq, alGet?_alSet_self]
        · have hne : c ≠ codigoDeEntrada fs := by
            intro hx
            exact heq (by rw [hx]; exact beq_self_eq_true _)
          simp [List.find?, heq,
            alGet?_alSet_ne acc (codigoDeEntrada fs) c (projEntrada fs) hne]

theorem construir_lookup_empty :
    ∀ (itens : List Dict) (acc idx : Indice),
    construirIndice (itens.map Json.obj) acc = some idx →
    alGet? acc "" = none → alGet? idx "" = none := by
  intro itens
  induction itens with
  | nil =>
    intro acc idx h hacc
    simp only [List.map_nil, construirIndice, Option.some.injEq] at h
    subst h
    exact hacc
  | cons fs rest ih =>
    intro acc idx h hacc
    simp only [List.map_cons, construirIndice] at h
    by_cases hcode : codigoDeEntrada fs = ""
    · rw [if_pos hcode] at h
      exact ih acc idx h hacc
    · rw [if_neg hcode] at h
      refine ih _ idx h ?_
      rw [alGet?_alSet_ne acc (codigoDeEntrada fs) "" (projEntrada fs) (Ne.symm hcode)]
      exact hacc

theorem any_map_obj_pyEqStr_false (itens : List Dict) (k : String) :
    ((itens.map Json.obj).any (fun x => pyEqStr x k)) = false := by
  induction itens with
  | nil => simp
  | cons fs rest ih => simpa [pyEqStr] using ih

/-- Claim C3 counterexample: an object whose fixed-key value is not an
array (here an empty object) is none of the three documented shapes, so
by the claim loading must fail with MalformedInput; instead
`carregar_dados_macrorregiao` iterates the empty dict and succeeds with
an empty index. -/
theorem c3_counterexample :
    carregar_dados_macrorregiao
        (Json.obj [(chave_municipios, Json.obj [])]) = some [] := by
  rfl

/-- Claim C3 amended: the loader accepts a direct array of entry objects
and any object exposing the entry list under the fixed key
`macrorregiao_regiao_saude_municipios` (the second and third documented
shapes coincide in the code); every accepted input builds the same index,
in which lookup by a non-empty municipality code returns the projection
of the last matching entry and `none` when no entry matches (the empty
code is never indexed); and any input that is neither an array nor an
object containing the fixed key fails.  (Not required by the code: an
object whose fixed-key value is a degenerate iterable, such as an empty
object, loads as an empty index instead of failing — see the
counterexample.) -/
theorem c3_amended :
    (∀ itens : List Dict,
      carregar_dados_macrorregiao (Json.arr (itens.map Json.obj))
        = construirIndice (itens.map Json.obj) []
      ∧ carregar_dados_macrorregiao
          (Json.obj [(chave_municipios, Json.arr (itens.map Json.obj))])
        = construirIndice (itens.map Json.obj) []
      ∧ (construirIndice (itens.map Json.obj) []).isSome = true)
    ∧ (∀ (itens : List Dict) (idx : Indice) (c : String),
      construirIndice (itens.map Json.obj) [] = some idx → c ≠ "" →
      (∀ g, ultimaEntradaCom c itens = some g →
        alGet? idx c = some (projEntrada g))
      ∧ (ultimaEntradaCom c itens = none → alGet? idx c = none))
    ∧ (∀ (itens : List Dict) (idx : Indice),
      construirIndice (itens.map Json.obj) [] = some idx →
      alGet? idx "" = none)
    ∧ (∀ dados : Json, (∀ xs, dados ≠ Json.arr xs) →
      (∀ fs, dados = Json.obj fs → alHasKey fs chave_municipios = false) →
      carregar_dados_macrorregiao dados = none) := by
  refine ⟨?_, ?_, ?_, ?_⟩
  · intro itens
    refine ⟨?_, ?_, construir_map_obj_isSome itens []⟩
    · simp [carregar_dados_macrorregiao, pyContainsStr,
        any_map_obj_pyEqStr_false]
    · simp [carregar_dados_macrorregiao, pyContainsStr, alHasKey,
        pySubscriptStr, alGet?, iterElems]
  · intro itens idx c h hc
    constructor
    · intro g hg
      rw [construir_lookup itens [] idx c hc h, hg]
    · intro hg
      rw [construir_lookup itens [] idx c hc h, hg]
      simp [alGet?]
  · intro itens idx h
    exact construir_lookup_empty itens [] idx h (by simp [alGet?])
  · intro dados harr hobj
    match dados with
    | Json.null => rfl
    | Json.bool b => rfl
    | Json.num n => rfl
    | Json.str s =>
      unfold carregar_dados_macrorregiao
      split <;> simp [pySubscriptStr]
    | Json.arr xs => exact absurd rfl (harr xs)
    | Json.obj fs =>
      unfold carregar_dados_macrorregiao
      simp [pyContainsStr, hobj fs rfl]

/-- Witness for C3 (amended): a one-entry reference file in both accepted
shapes, with a matching and a missing lookup. -/
theorem c3_amended_witness :
    carregar_dados_macrorregiao
        (Json.arr [Json.obj [("codigo_municipio", Json.str "150010")]])
      = construirIndice [Json.obj [("codigo_municipio", Json.str "150010")]] [] :=
  (c3_amended.1 [[("codigo_municipio", Json.str "150010")]]).1

/-! ### Merge -/

theorem alGet?_isSome_of_hasKey {α : Type} {l : List (String × α)} {k : String}
    (h : alHasKey l k = true) : ∃ v, alGet? l k = some v := by
  induction l with
  | nil => simp [alHasKey] at h
  | cons p rest ih =>
    by_cases hp : p.1 == k
    · exact ⟨p.2, by simp [alGet?, hp]⟩
    · rw [alHasKey] at h
      simp only [hp, Bool.false_or] at h
      obtain ⟨v, hv⟩ := ih h
      exact ⟨v, by simp [alGet?, hp, hv]⟩

/-- Claim C5: merging a record whose municipality code is present in the
reference index attaches a copy of the reference entry with the
`codigo_uf` field removed; a record with an empty or unmatched code gets
`dados_macrorregiao = None`, and the file-level loop records every
non-empty unmatched code in `codigos_municipio_nao_encontrados`. -/
theorem c5_merge_attach :
    (∀ (indice : Indice) (fs entrada : Dict) (c : String),
      pyStr (alGetD fs "codigo_municipio" (Json.str "")) = c → c ≠ "" →
      alGet? indice c = some entrada →
      alGet? (mesclar_dados_unidade indice fs) "dados_macrorregiao"
        = some (Json.obj (alDel entrada "codigo_uf")))
    ∧ (∀ (indice : Indice) (fs : Dict),
      (pyStr (alGetD fs "codigo_municipio" (Json.str "")) = ""
        ∨ alGet? indice (pyStr (alGetD fs "codigo_municipio" (Json.str ""))) = none) →
      alGet? (mesclar_dados_unidade indice fs) "dados_macrorregiao"
        = some Json.null)
    ∧ (∀ (indice : Indice) (ests : List Dict) (est : Dict),
      est ∈ ests →
      pyStr (alGetD est "codigo_municipio" (Json.str "")) ≠ "" →
      alGet? indice (pyStr (alGetD est "codigo_municipio" (Json.str ""))) = none →
      pyStr (alGetD est "codigo_municipio" (Json.str ""))
        ∈ (mesclar_arquivo_loop indice ests).nao_encontrados) := by
  have hmatch : ∀ (indice : Indice) (fs entrada : Dict) (c : String),
      pyStr (alGetD fs "codigo_municipio" (Json.str "")) = c → c ≠ "" →
      alGet? indice c = some entrada →
      alGet? (mesclar_dados_unidade indice fs) "dados_macrorregiao"
        = some (Json.obj (alDel entrada "codigo_uf")) := by
    intro indice fs entrada c hcc hc hidx
    unfold mesclar_dados_unidade
    rw [hcc]
    rw [if_pos ⟨hc, alHasKey_of_alGet? hidx⟩]
    rw [alGetD_of_alGet? hidx]
    exact alGet?_alSet_self _ _ _
  have hmiss : ∀ (indice : Indice) (fs : Dict),
      (pyStr (alGetD fs "codigo_municipio" (Json.str "")) = ""
        ∨ alGet? indice (pyStr (alGetD fs "codigo_municipio" (Json.str ""))) = none) →
      alGet? (mesclar_dados_unidade indice fs) "dados_macrorregiao"
        = some Json.null := by
    intro indice fs h
    unfold mesclar_dados_unidade
    have hcond : ¬(pyStr (alGetD fs "codigo_municipio" (Json.str "")) ≠ ""
        ∧ alHasKey indice (pyStr (alGetD fs "codigo_municipio" (Json.str ""))) = true) := by
      rintro ⟨hne, hkey⟩
      rcases h with h | h
      · exact hne h
      · obtain ⟨v, hv⟩ := alGet?_isSome_of_hasKey hkey
        rw [hv] at h
        exact Option.noConfusion h
    rw [if_neg hcond]
    exact alGet?_alSet_self _ _ _
  refine ⟨hmatch, hmiss, ?_⟩
  intro indice ests
  induction ests with
  | nil => intro est h; simp at h
  | cons e rest ih =>
    intro est hmem hne hnone
    have hval := hmiss indice est (Or.inr hnone)
    rcases List.mem_cons.mp hmem with he | he
    · subst he
      have hnull : (alGetD (mesclar_dados_unidade indice est) "dados_macrorregiao"
          Json.null).isNull = true := by
        rw [alGetD_of_alGet? hval]
        rfl
      simp only [mesclar_arquivo_loop, hnull]
      simp only [Bool.true_eq_false, if_false, if_pos hne]
      exact List.mem_cons_self _ _
    · have htail := ih est he hne hnone
      simp only [mesclar_arquivo_loop]
      split
      · exact htail
      · split
        · exact List.mem_cons_of_mem _ htail
        · exact htail

/-- Witness for C5: the spec scenario — entry for municipality "150010";
the matching record gets the entry without `codigo_uf`. -/
theorem c5_merge_attach_witness :
    alGet? (mesclar_dados_unidade
        [("150010", [("codigo_uf", Json.num 15), ("uf", Json.str "PA")])]
        [("codigo_municipio", Json.str "150010")]) "dados_macrorregiao"
      = some (Json.obj (alDel [("codigo_uf", Json.num 15), ("uf", Json.str "PA")] "codigo_uf")) :=
  c5_merge_attach.1 [("150010", [("codigo_uf", Json.num 15), ("uf", Json.str "PA")])]
    [("codigo_municipio", Json.str "150010")]
    [("codigo_uf", Json.num 15), ("uf", Json.str "PA")] "150010"
    (by rfl) (by decide) (by rfl)

theorem mesclar_codigo_preservado (indice : Indice) (fs : Dict) :
    alGet? (mesclar_dados_unidade indice fs) "codigo_municipio"
      = alGet? fs "codigo_municipio" := by
  simp only [mesclar_dados_unidade]
  have hdm : ("codigo_municipio" : String) ≠ "dados_macrorregiao" := by decide
  have hmd : ("codigo_municipio" : String) ≠ "_metadata" := by decide
  by_cases hkey : alHasKey fs "_metadata" = true
  · rw [if_pos hkey]
    split <;>
      rw [alGet?_alSet_ne _ _ _ _ hdm, alGet?_alDel_ne _ _ _ hmd]
  · rw [if_neg hkey]
    split <;> rw [alGet?_alSet_ne _ _ _ _ hdm]

theorem mesclar_mesmo_codigo (indice : Indice) (fs gs : Dict)
    (h : pyStr (alGetD fs "codigo_municipio" (Json.str ""))
       = pyStr (alGetD gs "codigo_municipio" (Json.str ""))) :
    alGet? (mesclar_dados_unidade indice fs) "dados_macrorregiao"
      = alGet? (mesclar_dados_unidade indice gs) "dados_macrorregiao" := by
  simp only [mesclar_dados_unidade]
  rw [h]
  by_cases hcond : pyStr (alGetD gs "codigo_municipio" (Json.str "")) ≠ ""
      ∧ alHasKey indice (pyStr (alGetD gs "codigo_municipio" (Json.str ""))) = true
  · rw [if_pos hcond, if_pos hcond, alGet?_alSet_self, alGet?_alSet_self]
  · rw [if_neg hcond, if_neg hcond, alGet?_alSet_self, alGet?_alSet_self]

/-- Claim C8: merging is idempotent per record with respect to the
attached regional data — for every record and fixed reference index,
merging the merged record again yields the same `dados_macrorregiao`
value. -/
theorem c8_merge_idempotent (indice : Indice) (fs : Dict) :
    alGet? (mesclar_dados_unidade indice (mesclar_dados_unidade indice fs))
        "dados_macrorregiao"
      = alGet? (mesclar_dados_unidade indice fs) "dados_macrorregiao" :=
  mesclar_mesmo_codigo indice (mesclar_dados_unidade indice fs) fs
    (by rw [alGetD, alGetD, mesclar_codigo_preservado])

/-! ### Progress tracker -/

/-- Claim C7 counterexample: a tracker mid-run (10 items total, past the
rate-limit window) whose stdout write raises: `update` returns the error
to its caller instead of absorbing it — and in
`processar_lista_codigos` that exception aborts the run (the surrounding
`except` re-raises). -/
theorem c7_counterexample :
    ProgressTracker.update ⟨10, 0, 0, 0, 0, 0, []⟩ 1 5 none none false
      = Except.error () := by
  norm_num [ProgressTracker.update]

/-- Claim C7 amended: errors raised while rendering in
`ProgressTracker.update` are not absorbed — whenever the rate-limit gate
does not short-circuit (and the percentage computation does not itself
raise, i.e. `total_items > 0`), a failing stdout write makes `update`
return the error to its caller; `finish` always renders, so a failing
write always escapes it.  Rendering errors are avoided only when the
early-return gate fires. -/
theorem c7_amended (t : ProgressTracker) (now : Rat) (processed : Nat)
    (sc ec : Option Nat) :
    (¬(now - t.last_update < 3 / 10 ∧ processed < t.total_items) →
      0 < t.total_items →
      ProgressTracker.update t now processed sc ec false = Except.error ())
    ∧ (ProgressTracker.finish t now false = Except.error ())
    ∧ ((now - t.last_update < 3 / 10 ∧ processed < t.total_items) →
      ∃ t', ProgressTracker.update t now processed sc ec false = Except.ok t') := by
  refine ⟨?_, rfl, ?_⟩
  · intro hgate htot
    have htot' : t.total_items ≠ 0 := by omega
    cases sc <;> cases ec <;> simp [ProgressTracker.update, hgate, htot']
  · intro hgate
    cases sc <;> cases ec <;>
      simp [ProgressTracker.update, hgate.1, hgate.2]

/-- Witness for C7 (amended): rendering reached and the write error
escapes for a concrete mid-run tracker. -/
theorem c7_amended_witness :
    ProgressTracker.update ⟨10, 3, 0, 0, 1, 2, []⟩ 1 5 none none false
      = Except.error () :=
  (c7_amended ⟨10, 3, 0, 0, 1, 2, []⟩ 1 5 none none).1
    (by norm_num) (by norm_num)
